import Mathlib

/-!
# Verification of the SLC playbook tool (`scripts/slc_learn.py`)

A shallow embedding of the playbook utility: a JSON document of lesson
"bullets" with helpful/harmful counters, manipulated by five commands
(`load`, `success`, `failure`, `seed`, `stats`).  The filesystem is
modelled as an `Option Document` (the backing file's parsed contents, or
`none` when the file does not exist); each command maps that state to a
new state together with a flag recording whether the command wrote the
file.  Timestamps (`datetime.now().isoformat()`) are threaded in as an
explicit `now : String` argument.  `hashlib.md5` is embedded as a full
executable MD5 over the UTF-8 bytes of the input.
-/

namespace SLC

/-! ## MD5 (embedding of `hashlib.md5(content.encode()).hexdigest()`) -/

/-- 32-bit truncation. -/
def mask32 (x : Nat) : Nat := x % 4294967296

/-- Left-rotation of a 32-bit word by `n` places. -/
def rotl32 (x n : Nat) : Nat :=
  mask32 (x <<< n) ||| (mask32 x >>> (32 - n))

/-- The 64 MD5 round constants `K[i] = floor(abs(sin(i+1)) * 2^32)`. -/
def md5K : List Nat :=
  [0xd76aa478, 0xe8c7b756, 0x242070db, 0xc1bdceee,
   0xf57c0faf, 0x4787c62a, 0xa8304613, 0xfd469501,
   0x698098d8, 0x8b44f7af, 0xffff5bb1, 0x895cd7be,
   0x6b901122, 0xfd987193, 0xa679438e, 0x49b40821,
   0xf61e2562, 0xc040b340, 0x265e5a51, 0xe9b6c7aa,
   0xd62f105d, 0x02441453, 0xd8a1e681, 0xe7d3fbc8,
   0x21e1cde6, 0xc33707d6, 0xf4d50d87, 0x455a14ed,
   0xa9e3e905, 0xfcefa3f8, 0x676f02d9, 0x8d2a4c8a,
   0xfffa3942, 0x8771f681, 0x6d9d6122, 0xfde5380c,
   0xa4beea44, 0x4bdecfa9, 0xf6bb4b60, 0xbebfbc70,
   0x289b7ec6, 0xeaa127fa, 0xd4ef3085, 0x04881d05,
   0xd9d4d039, 0xe6db99e5, 0x1fa27cf8, 0xc4ac5665,
   0xf4292244, 0x432aff97, 0xab9423a7, 0xfc93a039,
   0x655b59c3, 0x8f0ccc92, 0xffeff47d, 0x85845dd1,
   0x6fa87e4f, 0xfe2ce6e0, 0xa3014314, 0x4e0811a1,
   0xf7537e82, 0xbd3af235, 0x2ad7d2bb, 0xeb86d391]

/-- The 64 per-round left-rotation amounts. -/
def md5S : List Nat :=
  [7, 12, 17, 22, 7, 12, 17, 22, 7, 12, 17, 22, 7, 12, 17, 22,
   5, 9, 14, 20, 5, 9, 14, 20, 5, 9, 14, 20, 5, 9, 14, 20,
   4, 11, 16, 23, 4, 11, 16, 23, 4, 11, 16, 23, 4, 11, 16, 23,
   6, 10, 15, 21, 6, 10, 15, 21, 6, 10, 15, 21, 6, 10, 15, 21]

/-- Assemble a little-endian 32-bit word from four bytes. -/
def le32 (b0 b1 b2 b3 : Nat) : Nat :=
  b0 + b1 * 256 + b2 * 65536 + b3 * 16777216

/-- Split a byte list into consecutive little-endian 32-bit words. -/
def leWords : List Nat → List Nat
  | b0 :: b1 :: b2 :: b3 :: rest => le32 b0 b1 b2 b3 :: leWords rest
  | _ => []

/-- The eight little-endian bytes of a 64-bit value. -/
def le64Bytes (n : Nat) : List Nat :=
  [n % 256, (n >>> 8) % 256, (n >>> 16) % 256, (n >>> 24) % 256,
   (n >>> 32) % 256, (n >>> 40) % 256, (n >>> 48) % 256, (n >>> 56) % 256]

/-- MD5 padding: append `0x80`, zero-pad to 56 mod 64, append the
64-bit little-endian message bit length. -/
def md5Pad (msg : List Nat) : List Nat :=
  let z := (119 - msg.length % 64) % 64
  msg ++ [128] ++ List.replicate z 0 ++ le64Bytes ((msg.length * 8) % 18446744073709551616)

/-- One of the 64 MD5 rounds, acting on the running state `(a, b, c, d)`
with the current chunk's words `M`. -/
def md5Round (M : List Nat) (st : Nat × Nat × Nat × Nat) (i : Nat) : Nat × Nat × Nat × Nat :=
  let a := st.1
  let b := st.2.1
  let c := st.2.2.1
  let d := st.2.2.2
  let fg : Nat × Nat :=
    if i < 16 then ((b &&& c) ||| ((b ^^^ 4294967295) &&& d), i)
    else if i < 32 then ((d &&& b) ||| ((d ^^^ 4294967295) &&& c), (5 * i + 1) % 16)
    else if i < 48 then (b ^^^ c ^^^ d, (3 * i + 5) % 16)
    else (c ^^^ (b ||| (d ^^^ 4294967295)), (7 * i) % 16)
  let f := mask32 (fg.1 + a + md5K.getD i 0 + M.getD fg.2 0)
  (d, mask32 (b + rotl32 f (md5S.getD i 0)), b, c)

/-- Process one 64-byte chunk, updating the four word accumulators. -/
def md5Chunk (acc : Nat × Nat × Nat × Nat) (chunk : List Nat) : Nat × Nat × Nat × Nat :=
  let M := leWords chunk
  let st := (List.range 64).foldl (md5Round M) acc
  (mask32 (acc.1 + st.1), mask32 (acc.2.1 + st.2.1),
   mask32 (acc.2.2.1 + st.2.2.1), mask32 (acc.2.2.2 + st.2.2.2))

/-- Split a byte list into 64-byte chunks. -/
def toChunks (l : List Nat) : List (List Nat) :=
  match l with
  | [] => []
  | x :: xs => (x :: xs).take 64 :: toChunks ((x :: xs).drop 64)
termination_by l.length
decreasing_by simp only [List.length_drop, List.length_cons]; omega

/-- The 16 digest bytes of a padded-and-processed message. -/
def md5Bytes (msg : List Nat) : List Nat :=
  let st := (toChunks (md5Pad msg)).foldl md5Chunk
    (0x67452301, 0xefcdab89, 0x98badcfe, 0x10325476)
  [st.1, st.2.1, st.2.2.1, st.2.2.2].flatMap
    (fun w => [w % 256, (w >>> 8) % 256, (w >>> 16) % 256, (w >>> 24) % 256])

/-- Lowercase hex digit for a value below 16. -/
def hexDigit (n : Nat) : Char :=
  if n < 10 then Char.ofNat (48 + n) else Char.ofNat (87 + n)

/-- Two lowercase hex digits of a byte. -/
def byteHex (b : Nat) : List Char := [hexDigit (b / 16), hexDigit (b % 16)]

/-- UTF-8 bytes of a string, as natural numbers (Python `content.encode()`). -/
def strBytes (s : String) : List Nat := s.toUTF8.toList.map (fun b => b.toNat)

/-- `hashlib.md5(s.encode()).hexdigest()`: the 32 lowercase hex characters
of the MD5 digest of the UTF-8 encoding of `s`. -/
def md5hex (s : String) : String :=
  String.mk ((md5Bytes (strBytes s)).flatMap byteHex)

/-! ## Data model

One parsed playbook document.  Optional JSON keys become `Option`
fields (`none` = key absent or `null`); the integer counters read with
`b.get(key, 0)` become total `Nat` fields with default `0`. -/

/-- One lesson record (`bullets` entry). -/
structure Bullet where
  id : String
  content : String
  category : String
  helpful_count : Nat := 0
  harmful_count : Nat := 0
  source_endpoint : Option String := none
  created : String := ""
  last_used : Option String := none
deriving DecidableEq

/-- The document's `metadata` mapping. -/
structure Metadata where
  created : String := ""
  seeded : Bool := false
  last_success : Option String := none
  last_failure : Option String := none
  total_successes : Nat := 0
  total_failures : Nat := 0
deriving DecidableEq

/-- The whole persisted playbook document. -/
structure Document where
  metadata : Metadata
  bullets : List Bullet
deriving DecidableEq

/-- Result of running one command against the backing file: the file's
contents afterwards, and whether the command wrote the file
(called `save_playbook`). -/
structure CmdResult where
  file : Option Document
  wrote : Bool
deriving DecidableEq

/-- A bullet's score: `helpful_count - harmful_count`. -/
def score (b : Bullet) : Int := (b.helpful_count : Int) - (b.harmful_count : Int)

/-- `load_playbook`: parse the file if it exists, otherwise the fresh
default document (empty bullets, metadata holding only `created`). -/
def load_playbook (file : Option Document) (now : String) : Document :=
  match file with
  | some d => d
  | none => { metadata := { created := now }, bullets := [] }

/-- Python's substring test `needle in hay`, on character lists: the
needle is a prefix of some suffix of the haystack. -/
def listContains (needle hay : List Char) : Bool :=
  match hay with
  | [] => needle.isEmpty
  | c :: t => needle.isPrefixOf (c :: t) || listContains needle t

/-- Python's case-insensitive substring test
`needle.lower() in hay.lower()`. -/
def ciSubstr (needle hay : String) : Bool :=
  listContains (needle.data.map Char.toLower) (hay.data.map Char.toLower)

/-- Python's `s.split(sep)` for a one-character separator. -/
def splitChar (sep : Char) : List Char → List (List Char)
  | [] => [[]]
  | c :: t =>
    match splitChar sep t with
    | h :: rest => if c = sep then [] :: h :: rest else (c :: h) :: rest
    | [] => if c = sep then [[], []] else [[c]]

/-- Python's `s.split(",")`. -/
def pySplitComma (s : String) : List String :=
  (splitChar ',' s.data).map String.mk

/-- Python's `s.strip()`: drop whitespace from both ends. -/
def pyStrip (s : String) : String :=
  String.mk (((s.data.dropWhile Char.isWhitespace).reverse.dropWhile
    Char.isWhitespace).reverse)

/-- Python's `s.startswith(pre)`. -/
def pyStartsWith (s pre : String) : Bool :=
  pre.data.isPrefixOf s.data

/-! ## `make_id` -/

/-- `make_id`: uppercased first letter of the category, a hyphen, and the
first 6 hex characters of the MD5 of the content. -/
def make_id (category content : String) : String :=
  String.mk ([category.front.toUpper, '-'] ++ (md5hex content).data.take 6)

/-! ## `seed` -/

/-- The fixed list of 8 starter patterns of `cmd_seed`. -/
def seedPatterns : List (String × String) :=
  [("pitfall", "Don\x27t use mutable default arguments in Python (e.g., def foo(items=[]))"),
   ("pitfall", "Always validate input at API boundaries before processing"),
   ("pitfall", "Check for null/undefined before accessing nested object properties"),
   ("strategy", "Write tests before fixing bugs to prevent regression"),
   ("strategy", "Use environment variables for configuration, not hardcoded values"),
   ("strategy", "Log errors with context (request ID, user ID, operation) for debugging"),
   ("code", "Use try/finally or context managers to ensure resource cleanup"),
   ("code", "Prefer explicit imports over wildcard imports for clarity")]

/-- One starter bullet built by `cmd_seed` (zero counters, fresh id,
no `source_endpoint`/`last_used` keys). -/
def seedBullet (now : String) (p : String × String) : Bullet :=
  { id := make_id p.1 p.2, content := p.2, category := p.1,
    helpful_count := 0, harmful_count := 0,
    source_endpoint := none, created := now, last_used := none }

/-- `cmd_seed`: if the file exists and `--force` is not given, print and
return without touching it; otherwise overwrite the document with fresh
metadata (`created`, `seeded`) and the 8 starter bullets. -/
def cmd_seed (force : Bool) (now : String) (file : Option Document) : CmdResult :=
  if file.isSome && !force then { file := file, wrote := false }
  else
    { file := some { metadata := { created := now, seeded := true },
                     bullets := seedPatterns.map (seedBullet now) },
      wrote := true }

/-! ## `success` and `failure` -/

/-- Inner loop of the `--helpful` handling: bump `helpful_count` and set
`last_used` on every bullet whose id equals `bid`. -/
def creditHelpful (now bid : String) (bs : List Bullet) : List Bullet :=
  bs.map (fun b =>
    if b.id = bid then
      { b with helpful_count := b.helpful_count + 1, last_used := some now }
    else b)

/-- Inner loop of the `--harmful` handling: bump `harmful_count` on every
bullet whose id equals `bid` (no `last_used` update). -/
def creditHarmful (bid : String) (bs : List Bullet) : List Bullet :=
  bs.map (fun b =>
    if b.id = bid then { b with harmful_count := b.harmful_count + 1 }
    else b)

/-- The whole `--helpful` handling of `cmd_success` (a no-op when the
argument is absent or empty, by Python truthiness). -/
def applyHelpful (helpful : Option String) (now : String) (bs : List Bullet) : List Bullet :=
  match helpful with
  | some s =>
      if s = "" then bs
      else (pySplitComma s).foldl (fun acc bid => creditHelpful now (pyStrip bid) acc) bs
  | none => bs

/-- The whole `--harmful` handling of `cmd_failure`. -/
def applyHarmful (harmful : Option String) (bs : List Bullet) : List Bullet :=
  match harmful with
  | some s =>
      if s = "" then bs
      else (pySplitComma s).foldl (fun acc bid => creditHarmful (pyStrip bid) acc) bs
  | none => bs

/-- Whether the `--helpful` argument credits bullet `b`: the argument is
present and non-empty, and after comma-splitting and stripping one of its
ids equals `b.id`. -/
def creditedBy (helpful : Option String) (b : Bullet) : Bool :=
  match helpful with
  | some s => if s = "" then false else decide (b.id ∈ (pySplitComma s).map pyStrip)
  | none => false

/-- `cmd_success`: credit each comma-separated id in `--helpful`, then if
a (non-empty) lesson is given and is not already a case-insensitive
substring of an existing bullet's content, append a new bullet with
`helpful_count = 1`; finally update `last_success`/`total_successes` and
save. -/
def cmd_success (helpful lesson : Option String) (category : String)
    (endpoint : Option String) (now : String) (file : Option Document) : CmdResult :=
  let data := load_playbook file now
  let bs := applyHelpful helpful now data.bullets
  let bs2 :=
    match lesson with
    | some l =>
        if l = "" then bs
        else if bs.any (fun b => ciSubstr l b.content) then bs
        else bs ++ [{ id := make_id category l, content := l, category := category,
                      helpful_count := 1, harmful_count := 0,
                      source_endpoint := endpoint, created := now, last_used := none }]
    | none => bs
  { file := some
      { metadata := { data.metadata with
                      last_success := some now,
                      total_successes := data.metadata.total_successes + 1 },
        bullets := bs2 },
    wrote := true }

/-- `cmd_failure`: bump `harmful_count` for each id in `--harmful`, then
if a (non-empty) lesson is given, normalize it with an `"AVOID: "` prefix
(unless it already starts with `"AVOID"`) and append a pitfall bullet with
zero counters unless the *original* lesson text is already a
case-insensitive substring of an existing bullet's content; finally update
`last_failure`/`total_failures` and save. -/
def cmd_failure (harmful lesson : Option String)
    (endpoint : Option String) (now : String) (file : Option Document) : CmdResult :=
  let data := load_playbook file now
  let bs := applyHarmful harmful data.bullets
  let bs2 :=
    match lesson with
    | some l =>
        if l = "" then bs
        else
          let content := if pyStartsWith l "AVOID" then l else "AVOID: " ++ l
          if bs.any (fun b => ciSubstr l b.content) then bs
          else bs ++ [{ id := make_id "pitfall" content, content := content,
                        category := "pitfall",
                        helpful_count := 0, harmful_count := 0,
                        source_endpoint := endpoint, created := now, last_used := none }]
    | none => bs
  { file := some
      { metadata := { data.metadata with
                      last_failure := some now,
                      total_failures := data.metadata.total_failures + 1 },
        bullets := bs2 },
    wrote := true }

/-! ## `load` -/

/-- Stable descending insertion by score: the new element goes in front of
the first element whose score is not larger, so among equal scores an
earlier element stays in front. -/
def insertByScore (x : Bullet) : List Bullet → List Bullet
  | [] => [x]
  | y :: ys => if score x < score y then y :: insertByScore x ys else x :: y :: ys

/-- Embedding of `sorted(bullets, key=score, reverse=True)`: the stable
sort of the bullets by descending score. -/
def sortByScore : List Bullet → List Bullet
  | [] => []
  | x :: xs => insertByScore x (sortByScore xs)

/-- The endpoint-filter predicate of `cmd_load`: the bullet's
`source_endpoint` contains the filter as a case-insensitive substring
(Python truthiness: an absent or empty `source_endpoint` fails), or the
score is at least 2, or the category is `domain` or `code`. -/
def relevantFor (ep : String) (b : Bullet) : Bool :=
  (match b.source_endpoint with
   | some se => decide (se ≠ "") && ciSubstr ep se
   | none => false)
  || decide (2 ≤ score b)
  || (b.category = "domain" || b.category = "code")

/-- The bullets of `sorted` passing the endpoint filter. -/
def relevantFilter (ep : String) (sorted : List Bullet) : List Bullet :=
  sorted.filter (relevantFor ep)

/-- `relevant if relevant else bullets`: the filtered list, or the full
list when the filter selects nothing. -/
def selectForEndpoint (ep : String) (sorted : List Bullet) : List Bullet :=
  let relevant := relevantFilter ep sorted
  if relevant.isEmpty then sorted else relevant

/-- The category headings displayed by `cmd_load`, in order. -/
def displayCats : List String := ["pitfall", "strategy", "domain", "endpoint", "code"]

/-- The endpoint narrowing of `cmd_load`, applied only when an endpoint
filter argument is present and non-empty (Python truthiness of
`args.endpoint`). -/
def selectBullets (endpoint : Option String) (sorted : List Bullet) : List Bullet :=
  match endpoint with
  | some ep => if ep = "" then sorted else selectForEndpoint ep sorted
  | none => sorted

/-- The displayed part of `cmd_load`: nothing when there are no bullets;
otherwise sort by score, optionally narrow by the endpoint filter, keep
the top 25, group by category, and for each non-empty group in the fixed
category order show up to 5 bullets. -/
def loadDisplay (endpoint : Option String) (bullets : List Bullet) :
    List (String × List Bullet) :=
  if bullets.isEmpty then []
  else
    let top := (selectBullets endpoint (sortByScore bullets)).take 25
    displayCats.filterMap (fun c =>
      let g := top.filter (fun b => b.category = c)
      if g.isEmpty then none else some (c, g.take 5))

/-- `cmd_load`: seed first (non-forced) when the file does not exist, then
display the ranked digest.  Returns the file state with the write flag,
and the displayed groups. -/
def cmd_load (endpoint : Option String) (now : String) (file : Option Document) :
    CmdResult × List (String × List Bullet) :=
  let st :=
    if file.isNone then cmd_seed false now file
    else { file := file, wrote := false }
  (st, loadDisplay endpoint (load_playbook st.file now).bullets)

/-! ## `stats` -/

/-- `cmd_stats` is read-only: it loads the document, prints statistics,
and never calls `save_playbook`, so the file is left untouched. -/
def cmd_stats (_now : String) (file : Option Document) : CmdResult :=
  { file := file, wrote := false }

/-! ## Helper lemmas -/

theorem mem_insertByScore {z x : Bullet} {l : List Bullet} :
    z ∈ insertByScore x l ↔ z = x ∨ z ∈ l := by
  induction l with
  | nil => simp [insertByScore]
  | cons y ys ih =>
    simp only [insertByScore]
    by_cases h : score x < score y
    · simp only [if_pos h, List.mem_cons, ih]
      tauto
    · simp only [if_neg h, List.mem_cons]

theorem mem_sortByScore {z : Bullet} {l : List Bullet} :
    z ∈ sortByScore l ↔ z ∈ l := by
  induction l with
  | nil => simp [sortByScore]
  | cons x xs ih => simp [sortByScore, mem_insertByScore, ih]

theorem length_insertByScore (x : Bullet) (l : List Bullet) :
    (insertByScore x l).length = l.length + 1 := by
  induction l with
  | nil => rfl
  | cons y ys ih =>
    simp only [insertByScore]
    by_cases h : score x < score y
    · simp [if_pos h, ih]
    · simp [if_neg h]

theorem length_sortByScore (l : List Bullet) :
    (sortByScore l).length = l.length := by
  induction l with
  | nil => rfl
  | cons x xs ih => simp [sortByScore, length_insertByScore, ih]

theorem sortByScore_eq_nil {l : List Bullet} :
    sortByScore l = [] ↔ l = [] := by
  constructor
  · intro h
    have := length_sortByScore l
    rw [h] at this
    exact List.length_eq_zero.mp this.symm
  · intro h
    subst h
    rfl

theorem sorted_insertByScore {l : List Bullet} (x : Bullet)
    (h : l.Pairwise (fun a b => score b ≤ score a)) :
    (insertByScore x l).Pairwise (fun a b => score b ≤ score a) := by
  induction l with
  | nil => simp [insertByScore]
  | cons y ys ih =>
    rw [List.pairwise_cons] at h
    obtain ⟨hy, hys⟩ := h
    simp only [insertByScore]
    by_cases hxy : score x < score y
    · rw [if_pos hxy]
      rw [List.pairwise_cons]
      refine ⟨?_, ih hys⟩
      intro z hz
      rcases mem_insertByScore.mp hz with rfl | hz
      · exact le_of_lt hxy
      · exact hy z hz
    · rw [if_neg hxy]
      push_neg at hxy
      rw [List.pairwise_cons]
      refine ⟨?_, List.pairwise_cons.mpr ⟨hy, hys⟩⟩
      intro z hz
      rcases List.mem_cons.mp hz with rfl | hz
      · exact hxy
      · exact le_trans (hy z hz) hxy

theorem sortByScore_sorted (l : List Bullet) :
    (sortByScore l).Pairwise (fun a b => score b ≤ score a) := by
  induction l with
  | nil => simp [sortByScore]
  | cons x xs ih => exact sorted_insertByScore x ih

theorem filter_insertByScore (s : Int) (x : Bullet) (l : List Bullet) :
    (insertByScore x l).filter (fun b => score b == s) =
      (x :: l).filter (fun b => score b == s) := by
  induction l with
  | nil => rfl
  | cons y ys ih =>
    simp only [insertByScore]
    by_cases hxy : score x < score y
    · rw [if_pos hxy]
      by_cases hx : score x = s <;> by_cases hy : score y = s
      · exfalso
        omega
      · simp [List.filter_cons, hx, hy, ih]
      · simp [List.filter_cons, hx, hy, ih]
      · simp [List.filter_cons, hx, hy, ih]
    · rw [if_neg hxy]

theorem filter_sortByScore (s : Int) (l : List Bullet) :
    (sortByScore l).filter (fun b => score b == s) =
      l.filter (fun b => score b == s) := by
  induction l with
  | nil => rfl
  | cons x xs ih =>
    simp only [sortByScore]
    rw [filter_insertByScore, List.filter_cons, List.filter_cons, ih]

theorem creditHelpful_content (now bid : String) (bs : List Bullet) :
    (creditHelpful now bid bs).map Bullet.content = bs.map Bullet.content := by
  induction bs with
  | nil => rfl
  | cons b t ih =>
    simp only [creditHelpful, List.map_cons] at *
    rw [ih]
    by_cases h : b.id = bid <;> simp [h]

theorem creditHarmful_content (bid : String) (bs : List Bullet) :
    (creditHarmful bid bs).map Bullet.content = bs.map Bullet.content := by
  induction bs with
  | nil => rfl
  | cons b t ih =>
    simp only [creditHarmful, List.map_cons] at *
    rw [ih]
    by_cases h : b.id = bid <;> simp [h]

theorem applyHelpful_content (helpful : Option String) (now : String) (bs : List Bullet) :
    (applyHelpful helpful now bs).map Bullet.content = bs.map Bullet.content := by
  cases helpful with
  | none => rfl
  | some s =>
    simp only [applyHelpful]
    by_cases hs : s = ""
    · rw [if_pos hs]
    · rw [if_neg hs]
      generalize pySplitComma s = bids
      induction bids generalizing bs with
      | nil => rfl
      | cons bid t ih =>
        rw [List.foldl_cons, ih, creditHelpful_content]

theorem applyHarmful_content (harmful : Option String) (bs : List Bullet) :
    (applyHarmful harmful bs).map Bullet.content = bs.map Bullet.content := by
  cases harmful with
  | none => rfl
  | some s =>
    simp only [applyHarmful]
    by_cases hs : s = ""
    · rw [if_pos hs]
    · rw [if_neg hs]
      generalize pySplitComma s = bids
      induction bids generalizing bs with
      | nil => rfl
      | cons bid t ih =>
        rw [List.foldl_cons, ih, creditHarmful_content]

theorem foldl_creditHelpful_last_used (now : String) :
    ∀ (bids : List String) (bs : List Bullet),
      ((bids.foldl (fun acc bid => creditHelpful now (pyStrip bid) acc) bs).map
        Bullet.last_used) =
      bs.map (fun b => if b.id ∈ bids.map pyStrip then some now else b.last_used) := by
  intro bids
  induction bids with
  | nil =>
    intro bs
    simp
  | cons bid t ih =>
    intro bs
    rw [List.foldl_cons, ih]
    simp only [creditHelpful, List.map_map, List.map_cons]
    apply List.map_congr_left
    intro b _
    by_cases hbid : b.id = pyStrip bid
    · by_cases hmem : b.id ∈ t.map pyStrip <;>
        simp [Function.comp, hbid, hmem, List.mem_cons]
    · by_cases hmem : b.id ∈ t.map pyStrip <;>
        simp [Function.comp, hbid, hmem, List.mem_cons]

/-- The `last_used` fields after the whole `--helpful` pass: exactly the
credited bullets get `some now`, every other bullet keeps its previous
value. -/
theorem applyHelpful_last_used (helpful : Option String) (now : String) (bs : List Bullet) :
    (applyHelpful helpful now bs).map Bullet.last_used =
      bs.map (fun b => if creditedBy helpful b then some now else b.last_used) := by
  cases helpful with
  | none => simp [applyHelpful, creditedBy]
  | some s =>
    by_cases hs : s = ""
    · simp [applyHelpful, creditedBy, hs]
    · simp only [applyHelpful, creditedBy, if_neg hs]
      rw [foldl_creditHelpful_last_used]
      apply List.map_congr_left
      intro b _
      by_cases hmem : b.id ∈ (pySplitComma s).map pyStrip <;> simp [hmem]

theorem any_eq_any_map (q : String → Bool) :
    ∀ l : List Bullet, (l.any fun b => q b.content) = (l.map Bullet.content).any q := by
  intro l
  induction l with
  | nil => rfl
  | cons b t ih => simp [ih]

theorem any_content_eq {bs cs : List Bullet}
    (h : bs.map Bullet.content = cs.map Bullet.content) (q : String → Bool) :
    (bs.any fun b => q b.content) = (cs.any fun b => q b.content) := by
  rw [any_eq_any_map, any_eq_any_map, h]

theorem length_content_eq {bs cs : List Bullet}
    (h : bs.map Bullet.content = cs.map Bullet.content) :
    bs.length = cs.length := by
  have h2 := congrArg List.length h
  simpa using h2

/-- The narrowed-or-full list of `cmd_load` is always a sublist of the
sorted list. -/
theorem selectForEndpoint_sublist (ep : String) (sorted : List Bullet) :
    (selectForEndpoint ep sorted).Sublist sorted := by
  simp only [selectForEndpoint]
  by_cases h : (relevantFilter ep sorted).isEmpty
  · rw [if_pos h]
  · rw [if_neg h]
    exact List.filter_sublist sorted

/-- `selectBullets` is always a sublist of the sorted list. -/
theorem selectBullets_sublist (endpoint : Option String) (sorted : List Bullet) :
    (selectBullets endpoint sorted).Sublist sorted := by
  cases endpoint with
  | none => exact List.Sublist.refl _
  | some ep =>
    simp only [selectBullets]
    by_cases hep : ep = ""
    · rw [if_pos hep]
    · rw [if_neg hep]
      exact selectForEndpoint_sublist ep sorted

theorem loadDisplay_spec (endpoint : Option String) (bullets : List Bullet)
    (c : String) (g : List Bullet) (hg : (c, g) ∈ loadDisplay endpoint bullets) :
    g.Pairwise (fun a b => score b ≤ score a) ∧
    ∀ s : Int, (g.filter fun b => score b == s).Sublist
      (bullets.filter fun b => score b == s) := by
  simp only [loadDisplay] at hg
  split at hg
  · exact absurd hg (by simp)
  · obtain ⟨c', _, hf⟩ := List.mem_filterMap.mp hg
    by_cases hEmpty :
        (((selectBullets endpoint (sortByScore bullets)).take 25).filter
          (fun b => b.category = c')).isEmpty
    · rw [if_pos hEmpty] at hf
      exact absurd hf (by simp)
    · rw [if_neg hEmpty] at hf
      simp only [Option.some.injEq, Prod.mk.injEq] at hf
      obtain ⟨rfl, rfl⟩ := hf
      have hsub : ((((selectBullets endpoint (sortByScore bullets)).take 25).filter
          (fun b => b.category = c')).take 5).Sublist (sortByScore bullets) := by
        refine List.Sublist.trans (List.take_sublist _ _) ?_
        refine List.Sublist.trans (List.filter_sublist _) ?_
        exact List.Sublist.trans (List.take_sublist _ _)
          (selectBullets_sublist endpoint (sortByScore bullets))
      constructor
      · exact List.Pairwise.sublist hsub (sortByScore_sorted bullets)
      · intro s
        have h1 := List.Sublist.filter (fun b => score b == s) hsub
        rw [filter_sortByScore] at h1
        exact h1

/-! ## Sample documents for witnesses and counterexamples -/

/-- A strategy bullet with zero counters. -/
def bW1 : Bullet :=
  { id := "S-000001", content := "Alpha Beta", category := "strategy", created := "t0" }

/-- A pitfall bullet with zero counters. -/
def bW2 : Bullet :=
  { id := "P-000002", content := "Gamma Delta", category := "pitfall", created := "t0" }

/-- A code bullet (always passes the endpoint filter). -/
def bW3 : Bullet :=
  { id := "C-000003", content := "Epsilon", category := "code", created := "t0" }

/-- A two-bullet sample document. -/
def docW : Document := { metadata := { created := "t0" }, bullets := [bW1, bW2] }

/-- Two distinct bullets that share the id `X-000000`. -/
def bDup1 : Bullet :=
  { id := "X-000000", content := "first lesson", category := "strategy", created := "t0" }

/-- Second bullet bearing the same id `X-000000`. -/
def bDup2 : Bullet :=
  { id := "X-000000", content := "second lesson", category := "strategy", created := "t0" }

/-- A document with a duplicated bullet id. -/
def docDup : Document := { metadata := { created := "t0" }, bullets := [bDup1, bDup2] }

/-! ## Claim theorems -/

/-- C3: if the backing document exists and force is not set, `seed` leaves
the file untouched and does not write; consequently a second non-forced
`seed` after any first `seed` leaves the file exactly as the first left
it. -/
theorem seed_existing_noop_and_idempotent :
    ∀ (d : Document) (now₁ now₂ : String) (st : Option Document),
      cmd_seed false now₁ (some d) = { file := some d, wrote := false } ∧
      (cmd_seed false now₂ (cmd_seed false now₁ st).file).file =
        (cmd_seed false now₁ st).file := by
  intro d now₁ now₂ st
  refine ⟨rfl, ?_⟩
  cases st with
  | some d => rfl
  | none => rfl

/-- C2 counterexample: the claim says every operation (including `stats`)
writes the whole document back; but `cmd_stats` on a concrete existing
document performs no write at all. -/
theorem stats_never_writes_cx :
    cmd_stats "t1" (some docW) = { file := some docW, wrote := false } := rfl

/-- C2 (amended): `success` and `failure` always write the whole document
back; `seed` writes exactly when the file is absent or force is set;
`load` writes exactly when the file is absent (first-run seeding); `stats`
never writes and leaves the file unchanged. -/
theorem write_behavior :
    ∀ (helpful lesson harmful endpoint ep : Option String)
      (cat now : String) (file : Option Document) (force : Bool),
      (cmd_success helpful lesson cat endpoint now file).wrote = true ∧
      ((cmd_success helpful lesson cat endpoint now file).file).isSome = true ∧
      (cmd_failure harmful lesson endpoint now file).wrote = true ∧
      ((cmd_failure harmful lesson endpoint now file).file).isSome = true ∧
      (cmd_seed force now file).wrote = (file.isNone || force) ∧
      ((cmd_load ep now file).1).wrote = file.isNone ∧
      (cmd_stats now file).wrote = false ∧
      (cmd_stats now file).file = file := by
  intro helpful lesson harmful endpoint ep cat now file force
  refine ⟨rfl, rfl, rfl, rfl, ?_, ?_, rfl, rfl⟩
  · cases file <;> cases force <;> rfl
  · cases file <;> rfl

/-- C4: `make_id` is the uppercased first letter of the category, a
hyphen, and the first 6 hex characters of the MD5 of the content; it is
deterministic; and for the same content a `pitfall` id starts with `P`
while a `strategy` id starts with `S`, so the two ids differ. -/
theorem make_id_spec :
    ∀ (category content X : String),
      make_id category content =
        String.mk ([category.front.toUpper, '-'] ++ (md5hex content).data.take 6) ∧
      make_id category content = make_id category content ∧
      (make_id "pitfall" X).data.head? = some 'P' ∧
      (make_id "strategy" X).data.head? = some 'S' ∧
      make_id "pitfall" X ≠ make_id "strategy" X := by
  intro category content X
  have hp : (make_id "pitfall" X).data.head? = some 'P' := rfl
  have hs : (make_id "strategy" X).data.head? = some 'S' := rfl
  refine ⟨rfl, rfl, hp, hs, ?_⟩
  intro h
  have hps : some 'P' = some 'S' := by rw [← hp, h, hs]
  exact absurd hps (by decide)

/-- C9 counterexample: with two distinct bullets sharing id `X-000000`,
crediting that id through `success --helpful` increments `helpful_count`
on *both* bullets, not only on the last one as the claim states. -/
theorem success_credits_all_duplicates_cx :
    ((cmd_success (some "X-000000") none "strategy" none "t1" (some docDup)).file.map
      (fun d => d.bullets.map Bullet.helpful_count)) = some [1, 1] := by
  decide

/-- C9 (amended): when bullets share an id, a feedback operation matching
that id updates every bullet bearing it — `success --helpful` bumps
`helpful_count` (and stamps `last_used`) on each bullet whose id matches,
and `failure --harmful` bumps `harmful_count` on each bullet whose id
matches, leaving the others unchanged in both cases. -/
theorem success_updates_every_matching_bullet :
    ∀ (d : Document) (bid : String) (endpoint : Option String) (now : String),
      pySplitComma bid = [bid] → pyStrip bid = bid → bid ≠ "" →
      (∃ d', (cmd_success (some bid) none "strategy" endpoint now (some d)).file =
          some d' ∧
        d'.bullets = d.bullets.map (fun b =>
          if b.id = bid then
            { b with helpful_count := b.helpful_count + 1, last_used := some now }
          else b)) ∧
      (∃ d'', (cmd_failure (some bid) none endpoint now (some d)).file = some d'' ∧
        d''.bullets = d.bullets.map (fun b =>
          if b.id = bid then { b with harmful_count := b.harmful_count + 1 }
          else b)) := by
  intro d bid endpoint now hsplit hstrip hne
  constructor
  · refine ⟨_, rfl, ?_⟩
    simp only [cmd_success, applyHelpful, load_playbook]
    rw [if_neg hne, hsplit]
    simp only [List.foldl_cons, List.foldl_nil]
    rw [hstrip]
    rfl
  · refine ⟨_, rfl, ?_⟩
    simp only [cmd_failure, applyHarmful, load_playbook]
    rw [if_neg hne, hsplit]
    simp only [List.foldl_cons, List.foldl_nil]
    rw [hstrip]
    rfl

/-- C9 witness: the amended theorem applied to the concrete document with
the duplicated id `X-000000`, on both the success and the failure path. -/
theorem success_updates_every_matching_bullet_witness :
    (pySplitComma "X-000000" = ["X-000000"] ∧ pyStrip "X-000000" = "X-000000" ∧
      "X-000000" ≠ "") ∧
    (∃ d', (cmd_success (some "X-000000") none "strategy" none "t1" (some docDup)).file =
        some d' ∧
      d'.bullets = docDup.bullets.map (fun b =>
        if b.id = "X-000000" then
          { b with helpful_count := b.helpful_count + 1, last_used := some "t1" }
        else b)) ∧
    (∃ d'', (cmd_failure (some "X-000000") none none "t1" (some docDup)).file = some d'' ∧
      d''.bullets = docDup.bullets.map (fun b =>
        if b.id = "X-000000" then { b with harmful_count := b.harmful_count + 1 }
        else b)) :=
  ⟨⟨by decide, by decide, by decide⟩,
   (success_updates_every_matching_bullet docDup "X-000000" none "t1"
     (by decide) (by decide) (by decide)).1,
   (success_updates_every_matching_bullet docDup "X-000000" none "t1"
     (by decide) (by decide) (by decide)).2⟩

/-- C1: every category group displayed by `load` lists its bullets in
non-increasing score order, and within each score the displayed bullets
are a subsequence of the document's bullets at that score in their
original (insertion) order. -/
theorem load_display_sorted_stable :
    ∀ (file : Option Document) (endpoint : Option String) (now : String)
      (c : String) (g : List Bullet),
      (c, g) ∈ (cmd_load endpoint now file).2 →
      ∃ d, (cmd_load endpoint now file).1.file = some d ∧
        g.Pairwise (fun a b => score b ≤ score a) ∧
        ∀ s : Int, (g.filter fun b => score b == s).Sublist
          (d.bullets.filter fun b => score b == s) := by
  intro file endpoint now c g hg
  cases file with
  | some d => exact ⟨d, rfl, loadDisplay_spec endpoint d.bullets c g hg⟩
  | none => exact ⟨_, rfl, loadDisplay_spec endpoint _ c g hg⟩

/-- C1 witness: the theorem applied to a concrete two-bullet document,
whose `pitfall` group displays exactly the pitfall bullet. -/
theorem load_display_sorted_stable_witness :
    (("pitfall", [bW2]) ∈ (cmd_load none "t1" (some docW)).2) ∧
    ∃ d, (cmd_load none "t1" (some docW)).1.file = some d ∧
      List.Pairwise (fun a b => score b ≤ score a) [bW2] ∧
      ∀ s : Int, (List.filter (fun b => score b == s) [bW2]).Sublist
        (d.bullets.filter fun b => score b == s) :=
  ⟨by decide,
   load_display_sorted_stable (some docW) none "t1" "pitfall" [bW2] (by decide)⟩

/-- C8: with an endpoint filter, every selected bullet comes from the
document and is either relevant (endpoint substring match, score at least
2, or category `domain`/`code`) or kept by the full-list fallback; every
relevant bullet of the document is selected; and the selection is empty
exactly when the document has no bullets. -/
theorem endpoint_filter_spec :
    ∀ (bullets : List Bullet) (ep : String),
      (∀ b, b ∈ selectForEndpoint ep (sortByScore bullets) →
        b ∈ bullets ∧
          (relevantFor ep b = true ∨ relevantFilter ep (sortByScore bullets) = [])) ∧
      (∀ b, b ∈ bullets → relevantFor ep b = true →
        b ∈ selectForEndpoint ep (sortByScore bullets)) ∧
      (selectForEndpoint ep (sortByScore bullets) = [] ↔ bullets = []) := by
  intro bullets ep
  simp only [selectForEndpoint]
  by_cases hE : (relevantFilter ep (sortByScore bullets)).isEmpty
  · rw [if_pos hE]
    refine ⟨?_, ?_, ?_⟩
    · intro b hb
      exact ⟨mem_sortByScore.mp hb, Or.inr (List.isEmpty_iff.mp hE)⟩
    · intro b hb _
      exact mem_sortByScore.mpr hb
    · exact sortByScore_eq_nil
  · rw [if_neg hE]
    refine ⟨?_, ?_, ?_⟩
    · intro b hb
      have h1 := List.mem_filter.mp hb
      exact ⟨mem_sortByScore.mp h1.1, Or.inl h1.2⟩
    · intro b hb hrel
      exact List.mem_filter.mpr ⟨mem_sortByScore.mpr hb, hrel⟩
    · constructor
      · intro h
        exact absurd (List.isEmpty_iff.mpr h) hE
      · intro h
        subst h
        exact absurd (List.isEmpty_iff.mpr rfl) hE

/-- C8 witness: a `code`-category bullet always passes the filter and is
selected. -/
theorem endpoint_filter_spec_witness :
    (bW3 ∈ [bW3] ∧ relevantFor "api" bW3 = true) ∧
    bW3 ∈ selectForEndpoint "api" (sortByScore [bW3]) :=
  ⟨⟨by decide, by decide⟩,
   (endpoint_filter_spec [bW3] "api").2.1 bW3 (by decide) (by decide)⟩

/-- C5: if the lesson is already a case-insensitive substring of some
bullet's content, `success` appends no bullet (bullet count unchanged),
yet still increments `total_successes` and still writes the document. -/
theorem success_duplicate_suppression :
    ∀ (d : Document) (helpful : Option String) (category : String)
      (endpoint : Option String) (now lesson : String),
      (d.bullets.any fun b => ciSubstr lesson b.content) = true →
      ∃ d', (cmd_success helpful (some lesson) category endpoint now (some d)).file =
          some d' ∧
        d'.bullets.length = d.bullets.length ∧
        d'.metadata.total_successes = d.metadata.total_successes + 1 ∧
        (cmd_success helpful (some lesson) category endpoint now (some d)).wrote = true := by
  intro d helpful category endpoint now lesson hdup
  refine ⟨_, rfl, ?_, rfl, rfl⟩
  have hc := applyHelpful_content helpful now d.bullets
  simp only [cmd_success, load_playbook]
  by_cases hl : lesson = ""
  · rw [if_pos hl]
    exact length_content_eq hc
  · rw [if_neg hl]
    have hany : ((applyHelpful helpful now d.bullets).any fun b =>
        ciSubstr lesson b.content) = true :=
      (any_content_eq hc (ciSubstr lesson)).trans hdup
    rw [hany]
    simp only [if_true]
    exact length_content_eq hc

/-- C5 witness: recording the lesson `alpha beta` against a document whose
bullet content `Alpha Beta` already contains it case-insensitively. -/
theorem success_duplicate_suppression_witness :
    ((docW.bullets.any fun b => ciSubstr "alpha beta" b.content) = true) ∧
    ∃ d', (cmd_success none (some "alpha beta") "strategy" none "t1" (some docW)).file =
        some d' ∧
      d'.bullets.length = docW.bullets.length ∧
      d'.metadata.total_successes = docW.metadata.total_successes + 1 ∧
      (cmd_success none (some "alpha beta") "strategy" none "t1" (some docW)).wrote = true :=
  ⟨by decide,
   success_duplicate_suppression docW none "strategy" none "t1" "alpha beta" (by decide)⟩

/-- C6: when `failure` stores a lesson, the stored content is the lesson
prefixed with `AVOID: ` unless it already starts with `AVOID`; the new
bullet is a `pitfall` with both counters 0 and id computed from
`("pitfall", normalized_content)`. -/
theorem failure_lesson_normalization :
    ∀ (d : Document) (harmful endpoint : Option String) (now lesson : String),
      lesson ≠ "" →
      (d.bullets.any fun b => ciSubstr lesson b.content) = false →
      ∃ d', (cmd_failure harmful (some lesson) endpoint now (some d)).file = some d' ∧
        d'.bullets.getLast? = some
          { id := make_id "pitfall"
              (if pyStartsWith lesson "AVOID" then lesson else "AVOID: " ++ lesson),
            content := if pyStartsWith lesson "AVOID" then lesson else "AVOID: " ++ lesson,
            category := "pitfall", helpful_count := 0, harmful_count := 0,
            source_endpoint := endpoint, created := now, last_used := none } := by
  intro d harmful endpoint now lesson hl hdup
  refine ⟨_, rfl, ?_⟩
  have hc := applyHarmful_content harmful d.bullets
  have hany : ((applyHarmful harmful d.bullets).any fun b =>
      ciSubstr lesson b.content) = false :=
    (any_content_eq hc (ciSubstr lesson)).trans hdup
  simp only [cmd_failure, load_playbook]
  rw [if_neg hl, hany]
  simp only [Bool.false_eq_true, if_false]
  rw [List.getLast?_append_cons]
  rfl

/-- C6 witness: the spec's scenario lesson `hardcoded secrets in config`
stored with the `AVOID: ` prefix. -/
theorem failure_lesson_normalization_witness :
    ("hardcoded secrets in config" ≠ "" ∧
      (docW.bullets.any fun b => ciSubstr "hardcoded secrets in config" b.content) = false) ∧
    ∃ d', (cmd_failure none (some "hardcoded secrets in config") none "t1" (some docW)).file =
        some d' ∧
      d'.bullets.getLast? = some
        { id := make_id "pitfall"
            (if pyStartsWith "hardcoded secrets in config" "AVOID" then
              "hardcoded secrets in config" else "AVOID: " ++ "hardcoded secrets in config"),
          content := if pyStartsWith "hardcoded secrets in config" "AVOID" then
            "hardcoded secrets in config" else "AVOID: " ++ "hardcoded secrets in config",
          category := "pitfall", helpful_count := 0, harmful_count := 0,
          source_endpoint := none, created := "t1", last_used := none } :=
  ⟨⟨by decide, by decide⟩,
   failure_lesson_normalization docW none none "t1" "hardcoded secrets in config"
     (by decide) (by decide)⟩

/-- C7: `failure` appends a new pitfall bullet exactly when the original
(unprefixed) lesson text is not a case-insensitive substring of any
existing bullet's content, and the bullet it appends carries the
AVOID-prefixed form. -/
theorem failure_duplicate_check_unprefixed :
    ∀ (d : Document) (harmful endpoint : Option String) (now lesson : String),
      lesson ≠ "" →
      ∃ d', (cmd_failure harmful (some lesson) endpoint now (some d)).file = some d' ∧
        d'.bullets.length = d.bullets.length +
          (if (d.bullets.any fun b => ciSubstr lesson b.content) then 0 else 1) ∧
        ((d.bullets.any fun b => ciSubstr lesson b.content) = false →
          ∃ b, d'.bullets.getLast? = some b ∧
            b.content = if pyStartsWith lesson "AVOID" then lesson
              else "AVOID: " ++ lesson) := by
  intro d harmful endpoint now lesson hl
  refine ⟨_, rfl, ?_, ?_⟩
  · have hc := applyHarmful_content harmful d.bullets
    have hany : ((applyHarmful harmful d.bullets).any fun b =>
        ciSubstr lesson b.content) = (d.bullets.any fun b => ciSubstr lesson b.content) :=
      any_content_eq hc (ciSubstr lesson)
    simp only [cmd_failure, load_playbook]
    rw [if_neg hl, hany]
    by_cases hdup : (d.bullets.any fun b => ciSubstr lesson b.content) = true
    · rw [hdup]
      simp only [if_true, if_pos]
      exact length_content_eq hc
    · rw [Bool.not_eq_true] at hdup
      rw [hdup]
      simp only [Bool.false_eq_true, if_false, List.length_append, List.length_cons,
        List.length_nil]
      rw [length_content_eq hc]
  · intro hdup
    obtain ⟨d', hfile, hlast⟩ :=
      failure_lesson_normalization d harmful endpoint now lesson hl hdup
    have hrec := Option.some.inj hfile
    rw [hrec]
    exact ⟨_, hlast, rfl⟩

/-- C7 witness: the lesson `deploy on fridays` is suppressed because an
existing bullet already contains the unprefixed text (inside its
AVOID-prefixed content). -/
theorem failure_duplicate_check_unprefixed_witness :
    ("deploy on fridays" ≠ "") ∧
    ∃ d', (cmd_failure none (some "deploy on fridays") none "t1"
        (some { metadata := { created := "t0" },
                bullets := [{ id := "P-aaaaaa", content := "AVOID: deploy on fridays",
                              category := "pitfall", created := "t0" }] })).file = some d' ∧
      d'.bullets.length =
        1 + (if ([({ id := "P-aaaaaa", content := "AVOID: deploy on fridays",
                     category := "pitfall", created := "t0" } : Bullet)].any fun b =>
                ciSubstr "deploy on fridays" b.content) then 0 else 1) :=
  ⟨by decide,
   match failure_duplicate_check_unprefixed
     { metadata := { created := "t0" },
       bullets := [{ id := "P-aaaaaa", content := "AVOID: deploy on fridays",
                     category := "pitfall", created := "t0" }] }
     none none "t1" "deploy on fridays" (by decide) with
   | ⟨d', hfile, hlen, _⟩ => ⟨d', hfile, hlen⟩⟩

/-- C10: a bullet appended by `success --lesson` starts with
`helpful_count = 1` and carries no `last_used` at all; crediting a
bullet's id through `--helpful` sets its `last_used`; and for every
`success` invocation, the resulting `last_used` fields are exactly the
original ones with the current timestamp on the bullets credited through
`--helpful`, plus `none` for an appended bullet — so `last_used` appears
only through explicit `--helpful` crediting. -/
theorem success_new_bullet_no_last_used :
    ∀ (d : Document) (category : String) (endpoint : Option String) (now lesson : String),
      lesson ≠ "" →
      (d.bullets.any fun b => ciSubstr lesson b.content) = false →
      (∃ d', (cmd_success none (some lesson) category endpoint now (some d)).file =
          some d' ∧
        d'.bullets.getLast? = some
          { id := make_id category lesson, content := lesson, category := category,
            helpful_count := 1, harmful_count := 0, source_endpoint := endpoint,
            created := now, last_used := none }) ∧
      (∀ (bid : String) (bs : List Bullet) (b : Bullet), b ∈ bs → b.id = bid →
        { b with helpful_count := b.helpful_count + 1, last_used := some now } ∈
          creditHelpful now bid bs) ∧
      (∀ (d₂ : Document) (helpful lesson₂ : Option String) (category₂ : String)
        (endpoint₂ : Option String) (now₂ : String),
        ∃ d₂', (cmd_success helpful lesson₂ category₂ endpoint₂ now₂ (some d₂)).file =
            some d₂' ∧
          (d₂'.bullets.map Bullet.last_used =
            d₂.bullets.map (fun b => if creditedBy helpful b then some now₂ else b.last_used) ∨
           d₂'.bullets.map Bullet.last_used =
            d₂.bullets.map (fun b => if creditedBy helpful b then some now₂ else b.last_used)
              ++ [none])) := by
  intro d category endpoint now lesson hl hdup
  refine ⟨?_, ?_, ?_⟩
  · refine ⟨_, rfl, ?_⟩
    simp only [cmd_success, applyHelpful, load_playbook]
    rw [if_neg hl, hdup]
    simp only [Bool.false_eq_true, if_false]
    rw [List.getLast?_append_cons]
    rfl
  · intro bid bs b hb hbid
    refine List.mem_map.mpr ⟨b, hb, ?_⟩
    rw [if_pos hbid]
  · intro d₂ helpful lesson₂ category₂ endpoint₂ now₂
    refine ⟨_, rfl, ?_⟩
    cases lesson₂ with
    | none =>
      left
      exact applyHelpful_last_used helpful now₂ d₂.bullets
    | some l =>
      simp only [cmd_success, load_playbook]
      by_cases hl2 : l = ""
      · rw [if_pos hl2]
        left
        exact applyHelpful_last_used helpful now₂ d₂.bullets
      · rw [if_neg hl2]
        by_cases hany : ((applyHelpful helpful now₂ d₂.bullets).any fun b =>
            ciSubstr l b.content) = true
        · rw [hany]
          simp only [if_true]
          left
          exact applyHelpful_last_used helpful now₂ d₂.bullets
        · rw [Bool.not_eq_true] at hany
          rw [hany]
          simp only [Bool.false_eq_true, if_false]
          right
          rw [List.map_append, applyHelpful_last_used]
          rfl

/-- C10 witness: a fresh lesson appended to the sample document has
`helpful_count = 1` and no `last_used`; crediting the duplicated id sets
`last_used`; and a concrete `success` call's `last_used` fields are fully
accounted for by `--helpful` crediting plus the appended `none`. -/
theorem success_new_bullet_no_last_used_witness :
    ("Use connection pooling" ≠ "" ∧
      (docW.bullets.any fun b => ciSubstr "Use connection pooling" b.content) = false) ∧
    (∃ d', (cmd_success none (some "Use connection pooling") "strategy" none "t1"
        (some docW)).file = some d' ∧
      d'.bullets.getLast? = some
        { id := make_id "strategy" "Use connection pooling",
          content := "Use connection pooling", category := "strategy",
          helpful_count := 1, harmful_count := 0, source_endpoint := none,
          created := "t1", last_used := none }) ∧
    ({ bDup1 with helpful_count := bDup1.helpful_count + 1, last_used := some "t1" } ∈
      creditHelpful "t1" "X-000000" [bDup1]) ∧
    (∃ d₂', (cmd_success (some "X-000000") none "strategy" none "t1"
        (some docDup)).file = some d₂' ∧
      (d₂'.bullets.map Bullet.last_used =
        docDup.bullets.map (fun b =>
          if creditedBy (some "X-000000") b then some "t1" else b.last_used) ∨
       d₂'.bullets.map Bullet.last_used =
        docDup.bullets.map (fun b =>
          if creditedBy (some "X-000000") b then some "t1" else b.last_used) ++ [none])) :=
  ⟨⟨by decide, by decide⟩,
   (success_new_bullet_no_last_used docW "strategy" none "t1" "Use connection pooling"
     (by decide) (by decide)).1,
   (success_new_bullet_no_last_used docW "strategy" none "t1" "Use connection pooling"
     (by decide) (by decide)).2.1 "X-000000" [bDup1] bDup1 (by decide) (by decide),
   (success_new_bullet_no_last_used docW "strategy" none "t1" "Use connection pooling"
     (by decide) (by decide)).2.2 docDup (some "X-000000") none "strategy" none "t1"⟩

end SLC
